import Mathlib

/-!
Shallow embedding of the libnetconf2 SSH client transport layer
(src/session_client_ssh.c together with the session data model of
src/session_p.h and src/session.h), with theorems settling the claims
about version negotiation, session lifecycle, SSH authentication and
host-key checking, sibling rings of SSH channel sessions, and the
client option blocks.
-/

namespace Libnetconf2

/-- NC_STATUS from session.h: possible session statuses. -/
inductive NC_STATUS where
  | starting   -- NC_STATUS_STARTING: session is not yet fully initiated
  | closing    -- NC_STATUS_CLOSING: session is being closed
  | invalid    -- NC_STATUS_INVALID: session is not running, to be freed
  | running    -- NC_STATUS_RUNNING: up and running
  deriving DecidableEq, Repr

/-- NC_SIDE from session_p.h: side of the session. -/
inductive NC_SIDE where
  | client
  | server
  deriving DecidableEq, Repr

/-- NC_VERSION from session_p.h: supported NETCONF protocol versions. -/
inductive NC_VERSION where
  | v10   -- NC_VERSION_10
  | v11   -- NC_VERSION_11
  deriving DecidableEq, Repr

/-- NC_SSH_AUTH_TYPE from session.h: the three SSH client authentication
methods (publickey, password, keyboard-interactive). -/
inductive NC_SSH_AUTH_TYPE where
  | publickey
  | password
  | interactive
  deriving DecidableEq, Repr

/-! ## Client SSH option blocks (ssh_opts / ssh_ch_opts)

`struct nc_ssh_client_opts` keeps the three authentication preferences in
the array `auth_pref`, whose slots are used positionally by
`_nc_client_ssh_set_auth_pref` and `_nc_client_ssh_get_auth_pref`:
slot 0 is interactive, slot 1 is password, slot 2 is publickey.
The preference values are C `short int`; we model them as `Int`. -/

/-- The `auth_pref` array of `struct nc_ssh_client_opts`, with its three
positional slots named after the authentication type each slot holds
(per `_nc_client_ssh_set_auth_pref`). -/
structure AuthPrefs where
  interactive : Int   -- auth_pref[0].value
  password : Int      -- auth_pref[1].value
  publickey : Int     -- auth_pref[2].value
  deriving DecidableEq, Repr

/-- Initializer of the static `ssh_opts` variable:
`{{NC_SSH_AUTH_INTERACTIVE, 3}, {NC_SSH_AUTH_PASSWORD, 2}, {NC_SSH_AUTH_PUBLICKEY, 1}}`. -/
def ssh_opts_init : AuthPrefs := ⟨3, 2, 1⟩

/-- Initializer of the static `ssh_ch_opts` variable:
`{{NC_SSH_AUTH_INTERACTIVE, 1}, {NC_SSH_AUTH_PASSWORD, 2}, {NC_SSH_AUTH_PUBLICKEY, 3}}`. -/
def ssh_ch_opts_init : AuthPrefs := ⟨1, 2, 3⟩

/-- Function `_nc_client_ssh_set_auth_pref` from session_client_ssh.c:
clamp a negative preference to -1, then store it into the slot of the
given authentication type. -/
def set_auth_pref (auth_type : NC_SSH_AUTH_TYPE) (pref : Int) (opts : AuthPrefs) : AuthPrefs :=
  let p := if pref < 0 then -1 else pref
  match auth_type with
  | NC_SSH_AUTH_TYPE.interactive => { opts with interactive := p }
  | NC_SSH_AUTH_TYPE.password => { opts with password := p }
  | NC_SSH_AUTH_TYPE.publickey => { opts with publickey := p }

/-- Function `_nc_client_ssh_get_auth_pref` from session_client_ssh.c:
read the slot of the given authentication type (the local `pref` starts
at 0 and each recognized type overwrites it; all three types are
recognized). -/
def get_auth_pref (auth_type : NC_SSH_AUTH_TYPE) (opts : AuthPrefs) : Int :=
  match auth_type with
  | NC_SSH_AUTH_TYPE.interactive => opts.interactive
  | NC_SSH_AUTH_TYPE.password => opts.password
  | NC_SSH_AUTH_TYPE.publickey => opts.publickey

/-- The two static option blocks of session_client_ssh.c: `ssh_opts`
(normal connections) and `ssh_ch_opts` (Call-Home connections). -/
structure ClientSshGlobals where
  opts : AuthPrefs      -- static struct nc_client_ssh_opts ssh_opts
  ch_opts : AuthPrefs   -- static struct nc_client_ssh_opts ssh_ch_opts
  deriving DecidableEq, Repr

/-- Initial state of the two static option blocks. -/
def client_ssh_globals_init : ClientSshGlobals := ⟨ssh_opts_init, ssh_ch_opts_init⟩

/-- API `nc_client_ssh_set_auth_pref`: update the `ssh_opts` block. -/
def nc_client_ssh_set_auth_pref (t : NC_SSH_AUTH_TYPE) (p : Int)
    (g : ClientSshGlobals) : ClientSshGlobals :=
  { g with opts := set_auth_pref t p g.opts }

/-- API `nc_client_ssh_ch_set_auth_pref`: update the `ssh_ch_opts` block. -/
def nc_client_ssh_ch_set_auth_pref (t : NC_SSH_AUTH_TYPE) (p : Int)
    (g : ClientSshGlobals) : ClientSshGlobals :=
  { g with ch_opts := set_auth_pref t p g.ch_opts }

/-- API `nc_client_ssh_get_auth_pref`: read the `ssh_opts` block. -/
def nc_client_ssh_get_auth_pref (t : NC_SSH_AUTH_TYPE) (g : ClientSshGlobals) : Int :=
  get_auth_pref t g.opts

/-- API `nc_client_ssh_ch_get_auth_pref`: read the `ssh_ch_opts` block. -/
def nc_client_ssh_ch_get_auth_pref (t : NC_SSH_AUTH_TYPE) (g : ClientSshGlobals) : Int :=
  get_auth_pref t g.ch_opts

/-! ## Version negotiation (nc_handshake) -/

/-- Base capability URI advertising NETCONF 1.0. -/
def base10cap : String := "urn:ietf:params:netconf:base:1.0"

/-- Base capability URI advertising NETCONF 1.1. -/
def base11cap : String := "urn:ietf:params:netconf:base:1.1"

/-- Modelled from the spec: the version-negotiation step of `nc_handshake`
(declared in session_p.h; its implementation, session.c, is not among the
given sources). Given the hello capability advertisements of the two
peers, the negotiated version is v1.1 if both advertise base:1.1, else
v1.0 if both advertise base:1.0, else the handshake fails
(unsupported-version), here `none`. -/
def negotiateVersion (clientCaps serverCaps : List String) : Option NC_VERSION :=
  if base11cap ∈ clientCaps ∧ base11cap ∈ serverCaps then
    some NC_VERSION.v11
  else if base10cap ∈ clientCaps ∧ base10cap ∈ serverCaps then
    some NC_VERSION.v10
  else
    none

/-! ## Session structure and the SSH connect functions -/

/-- Subset of `struct nc_session` (session_p.h) relevant to the claims.
The C `version` field is zero-initialized by calloc and only becomes
meaningful once `nc_handshake` negotiates it, so it is modelled as an
`Option`; `tiLockSet` and `sshSessionSet` record non-nullness of the
`ti_lock` pointer and of `ti.libssh.session`. -/
structure Session where
  status : NC_STATUS
  side : NC_SIDE
  version : Option NC_VERSION
  tiLockSet : Bool
  sshSessionSet : Bool
  host : String
  port : Nat
  msgid : Nat
  deriving DecidableEq, Repr

/-- Modelled from the spec: the default NETCONF SSH port, the value of
the `NC_PORT_SSH` macro (netconf.h is not among the given sources; the
spec fixes the default SSH port at 830). -/
def NC_PORT_SSH : Nat := 830

/-- Host substitution at the top of `nc_connect_ssh`: a null or empty
host (the `strisempty` check) is replaced by "localhost". A `none`
argument models a NULL `const char *`. -/
def nc_connect_ssh_host (host : Option String) : String :=
  match host with
  | none => "localhost"
  | some h => if h = "" then "localhost" else h

/-- Port substitution at the top of `nc_connect_ssh`: port 0 is replaced
by the default NETCONF SSH port. -/
def nc_connect_ssh_port (port : Nat) : Nat :=
  if port = 0 then NC_PORT_SSH else port

/-- The first host-key algorithm list passed to `SSH_OPTIONS_HOSTKEYS`
(the richer one, including the ECDSA algorithms). -/
def hostkeys_with_ecdsa : String :=
  "ssh-ed25519,ecdsa-sha2-nistp521,ecdsa-sha2-nistp384,ecdsa-sha2-nistp256,ssh-rsa,ssh-dss,ssh-rsa1"

/-- The fallback host-key algorithm list without the ECDSA algorithms
("ecdsa is probably not supported..."). -/
def hostkeys_without_ecdsa : String :=
  "ssh-ed25519,ssh-rsa,ssh-dss,ssh-rsa1"

/-- Outcomes of the external calls made by `nc_connect_ssh`, so that the
control flow of the function can be followed for every possible outcome.
`handshake` is the result of `nc_handshake` (session.c is not among the
given sources); `none` is failure, `some v` negotiates version `v`. -/
structure ConnectEnv where
  usernameKnown : Bool      -- getpwuid succeeds when no username is configured
  callocOk : Bool           -- calloc of the session structure succeeds
  lockAllocOk : Bool        -- malloc of session->ti_lock succeeds
  sshNewOk : Bool           -- ssh_new succeeds
  hostkeysRichFail : Bool   -- ssh_options_set on the richer host-key list errors
  sockOk : Bool             -- nc_sock_connect does not return -1
  transportOk : Bool        -- connect_ssh_session_netconf returns 0
  handshake : Option NC_VERSION
  ctxFillOk : Bool          -- nc_ctx_check_and_fill does not return -1
  deriving DecidableEq, Repr

/-- Observable outcome of a connect function: the returned session (or
NULL), every value assigned to `session->status` in order, every
host-key list passed to `SSH_OPTIONS_HOSTKEYS` in order, and the
(host, port) pair passed to `nc_sock_connect`, when reached. -/
structure ConnectResult where
  session : Option Session
  statusTrace : List NC_STATUS
  hostkeyCalls : List String
  sockTarget : Option (String × Nat)
  deriving DecidableEq, Repr

/-- The host-key algorithm lists passed to `SSH_OPTIONS_HOSTKEYS`, in
order: the richer list first, and the reduced list only when setting
the richer one returned an error ("ecdsa is probably not supported").
This `if` block appears verbatim in both `nc_connect_ssh` and
`nc_accept_callhome_sock_ssh`. -/
def hostkey_option_calls (richFail : Bool) : List String :=
  if richFail then [hostkeys_with_ecdsa, hostkeys_without_ecdsa]
  else [hostkeys_with_ecdsa]

/-- API function `nc_connect_ssh` from session_client_ssh.c: substitute
the default host and port, resolve the username, allocate the session
with status `NC_STATUS_STARTING` and side `NC_CLIENT`, set the SSH
options (falling back to the reduced host-key list only when setting the
richer one errors), connect the socket, establish and authenticate the
SSH session (`connect_ssh_session_netconf`), run the NETCONF handshake,
and only then set status `NC_STATUS_RUNNING`. Every failure frees the
session and returns NULL. -/
def nc_connect_ssh (host : Option String) (port : Nat) (env : ConnectEnv) : ConnectResult :=
  if ¬env.usernameKnown then ⟨none, [], [], none⟩
  else if ¬env.callocOk then ⟨none, [], [], none⟩
  -- session->status = NC_STATUS_STARTING; session->side = NC_CLIENT;
  else if ¬env.lockAllocOk then ⟨none, [NC_STATUS.starting], [], none⟩
  else if ¬env.sshNewOk then ⟨none, [NC_STATUS.starting], [], none⟩
  -- SSH_OPTIONS_HOSTKEYS set, then nc_sock_connect(host, port)
  else if ¬env.sockOk then
    ⟨none, [NC_STATUS.starting], hostkey_option_calls env.hostkeysRichFail,
      some (nc_connect_ssh_host host, nc_connect_ssh_port port)⟩
  else if ¬env.transportOk then
    ⟨none, [NC_STATUS.starting], hostkey_option_calls env.hostkeysRichFail,
      some (nc_connect_ssh_host host, nc_connect_ssh_port port)⟩
  else
    match env.handshake with
    | none =>
      ⟨none, [NC_STATUS.starting], hostkey_option_calls env.hostkeysRichFail,
        some (nc_connect_ssh_host host, nc_connect_ssh_port port)⟩
    | some v =>
      -- session->status = NC_STATUS_RUNNING only after nc_handshake succeeded
      if ¬env.ctxFillOk then
        ⟨none, [NC_STATUS.starting, NC_STATUS.running],
          hostkey_option_calls env.hostkeysRichFail,
          some (nc_connect_ssh_host host, nc_connect_ssh_port port)⟩
      else
        ⟨some { status := NC_STATUS.running, side := NC_SIDE.client, version := some v,
                tiLockSet := true, sshSessionSet := true,
                host := nc_connect_ssh_host host, port := nc_connect_ssh_port port,
                msgid := 0 },
          [NC_STATUS.starting, NC_STATUS.running],
          hostkey_option_calls env.hostkeysRichFail,
          some (nc_connect_ssh_host host, nc_connect_ssh_port port)⟩

/-- Outcomes of the external calls made by `nc_connect_libssh`. -/
structure LibsshEnv where
  sshSessionGiven : Bool    -- the ssh_session argument is non-null
  callocOk : Bool
  lockAllocOk : Bool
  hostOptSet : Bool         -- SSH_OPTIONS_HOST was already set on the argument
  sockOk : Bool
  alreadyConnected : Bool   -- ssh_is_connected on the argument
  usernameKnown : Bool
  transportOk : Bool
  handshake : Option NC_VERSION
  ctxFillOk : Bool
  deriving DecidableEq, Repr

/-- API function `nc_connect_libssh` from session_client_ssh.c: wrap an
existing (possibly already connected) libssh session. The session is
created with status `NC_STATUS_STARTING` and side `NC_CLIENT`, the
transport is established if needed, and status becomes
`NC_STATUS_RUNNING` only after `nc_handshake` succeeds. -/
def nc_connect_libssh (env : LibsshEnv) : ConnectResult :=
  if ¬env.sshSessionGiven then ⟨none, [], [], none⟩
  else if ¬env.callocOk then ⟨none, [], [], none⟩
  else if ¬env.lockAllocOk then ⟨none, [NC_STATUS.starting], [], none⟩
  -- session->ti.libssh.session = ssh_session (non-null)
  else if ¬env.hostOptSet ∧ ¬env.sockOk then
    ⟨none, [NC_STATUS.starting], [], some ("localhost", 0)⟩
  else if ¬env.alreadyConnected ∧ ¬env.usernameKnown then
    ⟨none, [NC_STATUS.starting], [],
      if ¬env.hostOptSet then some ("localhost", 0) else none⟩
  else if ¬env.alreadyConnected ∧ ¬env.transportOk then
    ⟨none, [NC_STATUS.starting], [],
      if ¬env.hostOptSet then some ("localhost", 0) else none⟩
  else
    match env.handshake with
    | none =>
      ⟨none, [NC_STATUS.starting], [],
        if ¬env.hostOptSet then some ("localhost", 0) else none⟩
    | some v =>
      if ¬env.ctxFillOk then
        ⟨none, [NC_STATUS.starting, NC_STATUS.running], [],
          if ¬env.hostOptSet then some ("localhost", 0) else none⟩
      else
        ⟨some { status := NC_STATUS.running, side := NC_SIDE.client, version := some v,
                tiLockSet := true, sshSessionSet := true, host := "", port := 0,
                msgid := 0 },
          [NC_STATUS.starting, NC_STATUS.running], [],
          if ¬env.hostOptSet then some ("localhost", 0) else none⟩

/-- Outcomes of the external calls made by `nc_connect_ssh_channel`. -/
structure ChannelEnv where
  argGiven : Bool           -- the session argument is non-null
  callocOk : Bool
  channelOpenOk : Bool      -- ssh_channel_new + ssh_channel_open_session succeed
  subsysOk : Bool           -- ssh_channel_request_subsystem("netconf") succeeds
  handshake : Option NC_VERSION
  ctxFillOk : Bool
  deriving DecidableEq, Repr

/-- API function `nc_connect_ssh_channel` from session_client_ssh.c
(status/handshake behaviour; the sibling-ring splice is modelled
separately below): create a new session with status
`NC_STATUS_STARTING`, share `ti_lock` and `ti.libssh.session` with the
argument session, open a new channel with the `netconf` subsystem, run
the NETCONF handshake and only then set status `NC_STATUS_RUNNING`. -/
def nc_connect_ssh_channel (arg : Session) (env : ChannelEnv) : ConnectResult :=
  if ¬env.argGiven then ⟨none, [], [], none⟩
  else if ¬env.callocOk then ⟨none, [], [], none⟩
  -- new_session->ti_lock = session->ti_lock;
  -- new_session->ti.libssh.session = session->ti.libssh.session;
  else if ¬env.channelOpenOk then ⟨none, [NC_STATUS.starting], [], none⟩
  else if ¬env.subsysOk then ⟨none, [NC_STATUS.starting], [], none⟩
  else
    match env.handshake with
    | none => ⟨none, [NC_STATUS.starting], [], none⟩
    | some v =>
      if ¬env.ctxFillOk then
        ⟨none, [NC_STATUS.starting, NC_STATUS.running], [], none⟩
      else
        ⟨some { status := NC_STATUS.running, side := NC_SIDE.client, version := some v,
                tiLockSet := arg.tiLockSet, sshSessionSet := arg.sshSessionSet,
                host := arg.host, port := arg.port, msgid := 0 },
          [NC_STATUS.starting, NC_STATUS.running], [], none⟩

/-- Outcomes of the external calls made by `nc_accept_callhome_sock_ssh`
before it delegates to `nc_connect_libssh`. -/
structure CallhomeEnv where
  sshNewOk : Bool           -- ssh_new succeeds
  usernameKnown : Bool      -- getpwuid succeeds when ssh_ch_opts has no username
  hostkeysRichFail : Bool   -- ssh_options_set on the richer host-key list errors
  libsshEnv : LibsshEnv
  deriving DecidableEq, Repr

/-- Function `nc_accept_callhome_sock_ssh` from session_client_ssh.c:
create a libssh session for the accepted socket, set its options
(falling back to the reduced host-key list only when setting the richer
one errors), then run `nc_connect_libssh` on it. -/
def nc_accept_callhome_sock_ssh (env : CallhomeEnv) : ConnectResult :=
  if ¬env.sshNewOk then ⟨none, [], [], none⟩
  else if ¬env.usernameKnown then ⟨none, [], [], none⟩
  else
    { nc_connect_libssh { env.libsshEnv with sshSessionGiven := true } with
        hostkeyCalls := hostkey_option_calls env.hostkeysRichFail }

/-- Position of a status in the lifecycle order
starting -> running -> closing -> invalid of the spec. -/
def statusRank : NC_STATUS → Nat
  | NC_STATUS.starting => 0
  | NC_STATUS.running => 1
  | NC_STATUS.closing => 2
  | NC_STATUS.invalid => 3

/-! ## SSH client authentication (connect_ssh_session_netconf) -/

/-- The `userauthlist` bitmask of `connect_ssh_session_netconf`: which of
the three authentication methods the server still offers. -/
structure AuthOffer where
  interactive : Bool   -- SSH_AUTH_METHOD_INTERACTIVE bit
  password : Bool      -- SSH_AUTH_METHOD_PASSWORD bit
  publickey : Bool     -- SSH_AUTH_METHOD_PUBLICKEY bit
  deriving DecidableEq, Repr

/-- Whether the offer bit of a given method is set. -/
def AuthOffer.offers (o : AuthOffer) : NC_SSH_AUTH_TYPE → Bool
  | NC_SSH_AUTH_TYPE.interactive => o.interactive
  | NC_SSH_AUTH_TYPE.password => o.password
  | NC_SSH_AUTH_TYPE.publickey => o.publickey

/-- Removal of the disabled methods from `userauthlist` before the
authentication loop: a method whose configured preference is negative
has its bit cleared (`userauthlist &= ~...`). -/
def removeDisabled (p : AuthPrefs) (o : AuthOffer) : AuthOffer :=
  { interactive := if p.interactive < 0 then false else o.interactive,
    password := if p.password < 0 then false else o.password,
    publickey := if p.publickey < 0 then false else o.publickey }

/-- Method selection at the top of each round of the authentication loop
of `connect_ssh_session_netconf` (`auth = 0; pref = 0;` followed by the
three `if` statements; the publickey branch of the source does not
update `pref`, which is harmless as it is the last one). `none` models
`auth` remaining 0. -/
def selectAuth (p : AuthPrefs) (o : AuthOffer) : Option NC_SSH_AUTH_TYPE :=
  let a1 : Option NC_SSH_AUTH_TYPE × Int :=
    if o.interactive then (some NC_SSH_AUTH_TYPE.interactive, p.interactive) else (none, 0)
  let a2 : Option NC_SSH_AUTH_TYPE × Int :=
    if o.password = true ∧ a1.2 < p.password then (some NC_SSH_AUTH_TYPE.password, p.password)
    else a1
  let a3 : Option NC_SSH_AUTH_TYPE × Int :=
    if o.publickey = true ∧ a2.2 < p.publickey then (some NC_SSH_AUTH_TYPE.publickey, a2.2)
    else a2
  a3.1

/-- Clearing the bit of the attempted method
(`userauthlist &= ~SSH_AUTH_METHOD_...` in each switch case). -/
def removeMethod (o : AuthOffer) : NC_SSH_AUTH_TYPE → AuthOffer
  | NC_SSH_AUTH_TYPE.interactive => { o with interactive := false }
  | NC_SSH_AUTH_TYPE.password => { o with password := false }
  | NC_SSH_AUTH_TYPE.publickey => { o with publickey := false }

/-- The `while (ret_auth != SSH_AUTH_SUCCESS)` loop of
`connect_ssh_session_netconf`. Each round selects a method; if none is
selected the loop breaks with failure; otherwise the method is attempted
(`succ` abstracts the outcome of the attempt) and its offer bit is
cleared. The result records overall success and, for each round, the
offer at that round together with the attempted method. The fuel
argument only serves termination; each round clears one offer bit, so
fuel 3 is never exhausted. -/
def authLoop (p : AuthPrefs) (succ : NC_SSH_AUTH_TYPE → Bool) :
    Nat → AuthOffer → Bool × List (AuthOffer × NC_SSH_AUTH_TYPE)
  | 0, _ => (false, [])
  | fuel+1, o =>
    match selectAuth p o with
    | none => (false, [])
    | some m =>
      if succ m then (true, [(o, m)])
      else
        let r := authLoop p succ fuel (removeMethod o m)
        (r.1, (o, m) :: r.2)

/-- Result of the initial `ssh_userauth_none` probe. -/
inductive NoneAuthResult where
  | success   -- SSH_AUTH_SUCCESS: already authenticated
  | denied    -- anything other than success or error: run the loop
  | error     -- SSH_AUTH_ERROR: fail immediately
  deriving DecidableEq, Repr

/-- The authentication phase of `connect_ssh_session_netconf`:
`ssh_userauth_none`, removal of the disabled methods from the offered
list, then the authentication loop. Returns overall success and the
attempted rounds. -/
def connect_ssh_auth (p : AuthPrefs) (offered : AuthOffer)
    (succ : NC_SSH_AUTH_TYPE → Bool) (noneRes : NoneAuthResult) :
    Bool × List (AuthOffer × NC_SSH_AUTH_TYPE) :=
  match noneRes with
  | NoneAuthResult.error => (false, [])
  | NoneAuthResult.success => (true, [])
  | NoneAuthResult.denied => authLoop p succ 3 (removeDisabled p offered)

/-! ## Host-key checking (sshauth_hostkey_check) -/

/-- Result of `ssh_is_server_known`. -/
inductive KnownState where
  | knownOk        -- SSH_SERVER_KNOWN_OK
  | knownChanged   -- SSH_SERVER_KNOWN_CHANGED
  | foundOther     -- SSH_SERVER_FOUND_OTHER
  | fileNotFound   -- SSH_SERVER_FILE_NOT_FOUND
  | notKnown       -- SSH_SERVER_NOT_KNOWN
  | serverError    -- SSH_SERVER_ERROR
  deriving DecidableEq, Repr

/-- The libssh key types distinguished by `sshauth_hostkey_check`. -/
inductive SshKeyType where
  | unknown   -- SSH_KEYTYPE_UNKNOWN
  | dss       -- SSH_KEYTYPE_DSS
  | rsa       -- SSH_KEYTYPE_RSA
  | rsa1      -- SSH_KEYTYPE_RSA1
  | ecdsa     -- SSH_KEYTYPE_ECDSA
  | ed25519   -- SSH_KEYTYPE_ED25519
  deriving DecidableEq, Repr

/-- Inputs of `sshauth_hostkey_check`: the known-hosts state, the
outcomes of the public-key calls, the server key type, whether the
build has ENABLE_DNSSEC, the result of
`sshauth_hostkey_hash_dnssec_check` (0 secure match, 1 insecure match,
2 no match or error), and the interactive answers typed by the user
(`fscanf` reading one word per round; the end of the list is EOF). -/
structure HostkeyEnv where
  state : KnownState
  getPubkeyOk : Bool      -- ssh_get_publickey succeeds
  hashOk : Bool           -- ssh_get_publickey_hash succeeds (returning 0)
  keyType : SshKeyType
  dnssecEnabled : Bool    -- the ENABLE_DNSSEC build switch
  dnssecResult : Nat
  answers : List String
  deriving DecidableEq, Repr

/-- Outcome of `sshauth_hostkey_check`: `ok` is the return value
(true for 0, false for -1) and `wroteKnownHost` records whether
`ssh_write_knownhost` was called. -/
structure HostkeyOut where
  ok : Bool
  wroteKnownHost : Bool
  deriving DecidableEq, Repr

/-- The interactive `do ... while` prompt of `sshauth_hostkey_check`:
read an answer (EOF fails); "yes" writes the key into the known-hosts
file and succeeds (a failed write only warns); "no" fails; anything else
prompts again. -/
def hostkeyPrompt : List String → HostkeyOut
  | [] => ⟨false, false⟩
  | a :: rest =>
    if a = "yes" then ⟨true, true⟩
    else if a = "no" then ⟨false, false⟩
    else hostkeyPrompt rest

/-- Static function `sshauth_hostkey_check` from session_client_ssh.c.
For an unknown host key (also a missing known-hosts file or a key of
another type): under ENABLE_DNSSEC the guard
`(type != SSH_KEYTYPE_UNKNOWN) || (type != SSH_KEYTYPE_RSA1)` of the
source is a tautology, so the block always runs; `ret` is overwritten by
the SSHFP lookup only for DSS, RSA and ECDSA keys and otherwise keeps
the 0 returned by `ssh_get_publickey_hash`, and `if (!ret)` then writes
the key to known-hosts and succeeds. Otherwise the user is prompted. -/
def sshauth_hostkey_check (e : HostkeyEnv) : HostkeyOut :=
  if ¬e.getPubkeyOk then ⟨false, false⟩
  else if ¬e.hashOk then ⟨false, false⟩
  else
    match e.state with
    | KnownState.knownOk => ⟨true, false⟩
    | KnownState.knownChanged => ⟨false, false⟩
    | KnownState.serverError => ⟨false, false⟩
    | _ =>
      -- SSH_SERVER_FOUND_OTHER, SSH_SERVER_FILE_NOT_FOUND and
      -- SSH_SERVER_NOT_KNOWN all reach the hostkey_not_known label
      if e.dnssecEnabled then
        let ret : Nat :=
          if e.keyType = SshKeyType.dss ∨ e.keyType = SshKeyType.rsa
              ∨ e.keyType = SshKeyType.ecdsa then
            e.dnssecResult
          else 0
        if ret = 0 then ⟨true, true⟩   -- DNSSEC SSHFP check successful
        else hostkeyPrompt e.answers
      else hostkeyPrompt e.answers

/-! ## Message-id assignment (client RPC sending) -/

/-- Modelled from the spec: assignment of a message-id to an outbound
client RPC (io.c / session.c are not among the given sources). The spec
says the RPC receives "a message-id obtained by post-incrementing the
session's counter": the assigned id is the current value of
`session->msgid` and the counter is then incremented. -/
def nc_send_rpc_msgid (s : Session) : Nat × Session :=
  (s.msgid, { s with msgid := s.msgid + 1 })

/-- Message-ids assigned to `n` successive RPCs sent on a session. -/
def msgidSeq : Session → Nat → List Nat
  | _, 0 => []
  | s, n+1 =>
    let r := nc_send_rpc_msgid s
    r.1 :: msgidSeq r.2 n

/-! ## Message direction checks (nc_recv_rpc / nc_send_rpc) -/

/-- Subset of NC_MSG_TYPE (messages.h) used by the direction checks. -/
inductive NC_MSG_TYPE where
  | error        -- NC_MSG_ERROR
  | wouldblock   -- NC_MSG_WOULDBLOCK
  | rpc          -- NC_MSG_RPC
  | reply        -- NC_MSG_REPLY
  | notif        -- NC_MSG_NOTIF
  deriving DecidableEq, Repr

/-- Modelled from the spec: `nc_recv_rpc` (session.c is not among the
given sources; the behaviour is fixed by tests test_read_rpc_10_bad and
test_read_rpc_11_bad): receiving an RPC on a session that is not a
running server-side session returns NC_MSG_ERROR and stores no RPC;
otherwise the RPC read from the wire (abstracted by `wire`; `none` is a
read failure) is returned. -/
def nc_recv_rpc (s : Session) (wire : Option Nat) : NC_MSG_TYPE × Option Nat :=
  if s.status ≠ NC_STATUS.running ∨ s.side ≠ NC_SIDE.server then
    (NC_MSG_TYPE.error, none)
  else
    match wire with
    | some r => (NC_MSG_TYPE.rpc, some r)
    | none => (NC_MSG_TYPE.error, none)

/-- Modelled from the spec: `nc_send_rpc` (session.c is not among the
given sources; the behaviour is fixed by tests test_write_rpc_bad and
test_write_rpc): sending an RPC on a session that is not a running
client-side session returns NC_MSG_ERROR; otherwise the outcome of the
write (abstracted by `writeOk`) decides between NC_MSG_RPC and
NC_MSG_ERROR. -/
def nc_send_rpc (s : Session) (writeOk : Bool) : NC_MSG_TYPE :=
  if s.status ≠ NC_STATUS.running ∨ s.side ≠ NC_SIDE.client then
    NC_MSG_TYPE.error
  else if writeOk then NC_MSG_TYPE.rpc
  else NC_MSG_TYPE.error

/-! ## SSH channel sibling ring (nc_connect_ssh_channel)

Sessions are named by natural numbers; the three maps give, for each
session, its `ti.libssh.next` pointer (`none` is NULL), the identity of
its `ti_lock` pointer and the identity of its `ti.libssh.session`
handle. -/

/-- Pointer fields of the sessions relevant to the sibling ring. -/
structure SiblingState where
  next : Nat → Option Nat   -- ti.libssh.next
  lock : Nat → Nat          -- ti_lock (pointer identity)
  sshs : Nat → Nat          -- ti.libssh.session (pointer identity)

/-- The sharing assignments and the ring splice of
`nc_connect_ssh_channel` for argument session `s` and new session `n`:
`new_session->ti_lock = session->ti_lock`,
`new_session->ti.libssh.session = session->ti.libssh.session`, and the
"append to the session ring list" block: when `session` has no sibling
yet the two sessions point at each other, otherwise the new session is
spliced in right after `session`. -/
def connectChannelRing (st : SiblingState) (s n : Nat) : SiblingState :=
  { next := fun a =>
      if a = n then
        match st.next s with
        | none => some s        -- session->next was NULL: new->next = session
        | some ptr => some ptr  -- ptr = session->next; new->next = ptr
      else if a = s then some n -- session->next = new
      else st.next a,
    lock := fun a => if a = n then st.lock s else st.lock a,
    sshs := fun a => if a = n then st.sshs s else st.sshs a }

/-- A nonempty duplicate-free list is a ring listing of the `next`
pointers when every element points to the following one and the last
points back to the first. -/
structure IsRing (next : Nat → Option Nat) (l : List Nat) : Prop where
  ne : l ≠ []
  nodup : l.Nodup
  chain : List.Chain' (fun a b => next a = some b) l
  wrap : next (l.getLast ne) = l.head?

/-- Follow the `next` pointers `k` times. -/
def iterNext (next : Nat → Option Nat) : Nat → Nat → Option Nat
  | 0, a => some a
  | k+1, a =>
    match next a with
    | none => none
    | some b => iterNext next k b

/-- Session `b` is reachable from session `a` through the `next`
pointers. -/
def Reaches (next : Nat → Option Nat) (a b : Nat) : Prop :=
  ∃ k, iterNext next k a = some b

/-- The first "yes" or "no" word among the interactive answers: the one
that ends the `do ... while` prompt loop. -/
def firstDecisiveAnswer : List String → Option String
  | [] => none
  | a :: rest => if a = "yes" ∨ a = "no" then some a else firstDecisiveAnswer rest

/-- An environment where every external call of `nc_connect_ssh`
succeeds and the handshake negotiates v1.1. -/
def connectEnvAllOk : ConnectEnv :=
  { usernameKnown := true, callocOk := true, lockAllocOk := true, sshNewOk := true,
    hostkeysRichFail := false, sockOk := true, transportOk := true,
    handshake := some NC_VERSION.v11, ctxFillOk := true }

/-- A concrete host-key environment: unknown host key, DNSSEC disabled,
the user first types an undecisive word and then "no". -/
def hostkeyEnvDemo : HostkeyEnv :=
  { state := KnownState.notKnown, getPubkeyOk := true, hashOk := true,
    keyType := SshKeyType.rsa, dnssecEnabled := false, dnssecResult := 2,
    answers := ["maybe", "no"] }

/-- A concrete universe of session pointer data: one session (number 0)
with no sibling yet, every session's lock pointer is 7 and ssh handle 9. -/
def siblingDemo : SiblingState :=
  { next := fun _ => none, lock := fun _ => 7, sshs := fun _ => 9 }

/-- Lifecycle facts about the outcome of one connect function: every
created session starts with status `NC_STATUS_STARTING`, the statuses
assigned move strictly forward along the lifecycle order
starting -> running -> closing -> invalid, `NC_STATUS_RUNNING` is
assigned only when `nc_handshake` succeeded, and a returned session is
running with a negotiated version. -/
def LifecycleOk (r : ConnectResult) (handshake : Option NC_VERSION) : Prop :=
  (r.statusTrace ≠ [] → r.statusTrace.head? = some NC_STATUS.starting) ∧
  List.Chain' (fun a b => statusRank a < statusRank b) r.statusTrace ∧
  (NC_STATUS.running ∈ r.statusTrace → handshake ≠ none) ∧
  (∀ s, r.session = some s → s.status = NC_STATUS.running ∧ s.version ≠ none ∧
    s.version = handshake)

/-- Offer inclusion: every method offered by the first is offered by the
second. -/
def OfferSub (o o' : AuthOffer) : Prop :=
  ∀ m, o.offers m = true → o'.offers m = true

/-! ## Theorems -/

/-- C10: after `nc_client_ssh_set_auth_pref(auth_type, pref)` the getter
of the same type returns `pref` when `pref >= 0` and `-1` when
`pref < 0`, the stored preferences of the other two types are unchanged,
and the same holds for the `nc_client_ssh_ch_*` variants over their
separate option block; each setter leaves the other block untouched. -/
theorem c10_auth_pref_set_get (g : ClientSshGlobals) (t t' : NC_SSH_AUTH_TYPE) (p : Int) :
    (nc_client_ssh_get_auth_pref t (nc_client_ssh_set_auth_pref t p g)
      = if p < 0 then -1 else p) ∧
    (t' ≠ t → nc_client_ssh_get_auth_pref t' (nc_client_ssh_set_auth_pref t p g)
      = nc_client_ssh_get_auth_pref t' g) ∧
    (nc_client_ssh_ch_get_auth_pref t (nc_client_ssh_ch_set_auth_pref t p g)
      = if p < 0 then -1 else p) ∧
    (t' ≠ t → nc_client_ssh_ch_get_auth_pref t' (nc_client_ssh_ch_set_auth_pref t p g)
      = nc_client_ssh_ch_get_auth_pref t' g) ∧
    (nc_client_ssh_ch_get_auth_pref t' (nc_client_ssh_set_auth_pref t p g)
      = nc_client_ssh_ch_get_auth_pref t' g) ∧
    (nc_client_ssh_get_auth_pref t' (nc_client_ssh_ch_set_auth_pref t p g)
      = nc_client_ssh_get_auth_pref t' g) := by
  cases t <;> cases t' <;>
    simp [nc_client_ssh_get_auth_pref, nc_client_ssh_set_auth_pref,
      nc_client_ssh_ch_get_auth_pref, nc_client_ssh_ch_set_auth_pref,
      get_auth_pref, set_auth_pref]

/-- C2: for every pair of hello capability advertisements, the
negotiated version is v1.1 exactly when both advertise base:1.1; it is
v1.0 exactly when that fails and both advertise base:1.0; and the
handshake fails (unsupported-version) exactly when neither holds. -/
theorem c2_version_negotiation (A B : List String) :
    (negotiateVersion A B = some NC_VERSION.v11 ↔ (base11cap ∈ A ∧ base11cap ∈ B)) ∧
    (negotiateVersion A B = some NC_VERSION.v10 ↔
      (¬(base11cap ∈ A ∧ base11cap ∈ B) ∧ (base10cap ∈ A ∧ base10cap ∈ B))) ∧
    (negotiateVersion A B = none ↔
      (¬(base11cap ∈ A ∧ base11cap ∈ B) ∧ ¬(base10cap ∈ A ∧ base10cap ∈ B))) := by
  unfold negotiateVersion
  by_cases h11 : base11cap ∈ A ∧ base11cap ∈ B <;>
    by_cases h10 : base10cap ∈ A ∧ base10cap ∈ B <;>
      simp [h11, h10]

/-- C9: message direction is enforced by session role: on a client-side
session `nc_recv_rpc` returns NC_MSG_ERROR and stores no RPC, on a
server-side session `nc_send_rpc` returns NC_MSG_ERROR, and an RPC is
received successfully only on a server-side session and sent
successfully only on a client-side session. -/
theorem c9_direction_enforcement (s : Session) (wire : Option Nat) (writeOk : Bool) :
    (s.side = NC_SIDE.client → nc_recv_rpc s wire = (NC_MSG_TYPE.error, none)) ∧
    (s.side = NC_SIDE.server → nc_send_rpc s writeOk = NC_MSG_TYPE.error) ∧
    ((nc_recv_rpc s wire).1 = NC_MSG_TYPE.rpc → s.side = NC_SIDE.server) ∧
    (nc_send_rpc s writeOk = NC_MSG_TYPE.rpc → s.side = NC_SIDE.client) := by
  cases hside : s.side <;> cases hst : s.status <;> cases wire <;> cases writeOk <;>
    simp [nc_recv_rpc, nc_send_rpc, hside, hst]

lemma hostkey_option_calls_head (b : Bool) :
    (hostkey_option_calls b).head? = some hostkeys_with_ecdsa := by
  cases b <;> rfl

lemma hostkey_option_calls_mem (b : Bool)
    (h : hostkeys_without_ecdsa ∈ hostkey_option_calls b) : b = true := by
  cases b
  · simp [hostkey_option_calls, hostkeys_without_ecdsa, hostkeys_with_ecdsa] at h
  · rfl

lemma nc_connect_ssh_hostkeyCalls (host : Option String) (port : Nat) (env : ConnectEnv) :
    (nc_connect_ssh host port env).hostkeyCalls = [] ∨
    (nc_connect_ssh host port env).hostkeyCalls = hostkey_option_calls env.hostkeysRichFail := by
  unfold nc_connect_ssh
  repeat' split <;> try simp

lemma nc_accept_callhome_hostkeyCalls (cenv : CallhomeEnv) :
    (nc_accept_callhome_sock_ssh cenv).hostkeyCalls = [] ∨
    (nc_accept_callhome_sock_ssh cenv).hostkeyCalls
      = hostkey_option_calls cenv.hostkeysRichFail := by
  unfold nc_accept_callhome_sock_ssh
  repeat' split <;> simp

/-- C7: in both `nc_connect_ssh` and `nc_accept_callhome_sock_ssh`, the
host-key algorithm list attempted first (when any is attempted) is the
richer list including the ECDSA algorithms, and the reduced list without
ECDSA is passed only when setting the richer list returned an error. -/
theorem c7_hostkey_list_fallback (host : Option String) (port : Nat) (env : ConnectEnv)
    (cenv : CallhomeEnv) :
    ((nc_connect_ssh host port env).hostkeyCalls ≠ [] →
      (nc_connect_ssh host port env).hostkeyCalls.head? = some hostkeys_with_ecdsa) ∧
    (hostkeys_without_ecdsa ∈ (nc_connect_ssh host port env).hostkeyCalls →
      env.hostkeysRichFail = true) ∧
    ((nc_accept_callhome_sock_ssh cenv).hostkeyCalls ≠ [] →
      (nc_accept_callhome_sock_ssh cenv).hostkeyCalls.head? = some hostkeys_with_ecdsa) ∧
    (hostkeys_without_ecdsa ∈ (nc_accept_callhome_sock_ssh cenv).hostkeyCalls →
      cenv.hostkeysRichFail = true) := by
  refine ⟨?_, ?_, ?_, ?_⟩
  · rcases nc_connect_ssh_hostkeyCalls host port env with h | h <;> rw [h]
    · intro hn
      exact absurd rfl hn
    · intro _
      exact hostkey_option_calls_head _
  · rcases nc_connect_ssh_hostkeyCalls host port env with h | h <;> rw [h]
    · intro hm
      simp at hm
    · exact hostkey_option_calls_mem _
  · rcases nc_accept_callhome_hostkeyCalls cenv with h | h <;> rw [h]
    · intro hn
      exact absurd rfl hn
    · intro _
      exact hostkey_option_calls_head _
  · rcases nc_accept_callhome_hostkeyCalls cenv with h | h <;> rw [h]
    · intro hm
      simp at hm
    · exact hostkey_option_calls_mem _

/-- C8: `nc_connect_ssh(host, port, ctx)` uses the default NETCONF SSH
port 830 when `port` is 0 and the host "localhost" when `host` is null
or empty; otherwise the arguments are used unchanged, both for the
socket connection and for the host/port stored in the session. -/
theorem c8_connect_defaults (host : Option String) (port : Nat) (env : ConnectEnv) :
    (nc_connect_ssh_host none = "localhost") ∧
    (nc_connect_ssh_host (some "") = "localhost") ∧
    (∀ h : String, h ≠ "" → nc_connect_ssh_host (some h) = h) ∧
    (nc_connect_ssh_port 0 = 830) ∧
    (port ≠ 0 → nc_connect_ssh_port port = port) ∧
    (∀ t, (nc_connect_ssh host port env).sockTarget = some t →
      t = (nc_connect_ssh_host host, nc_connect_ssh_port port)) ∧
    (∀ s, (nc_connect_ssh host port env).session = some s →
      s.host = nc_connect_ssh_host host ∧ s.port = nc_connect_ssh_port port) := by
  refine ⟨rfl, rfl, ?_, rfl, ?_, ?_, ?_⟩
  · intro h hh
    simp [nc_connect_ssh_host, hh]
  · intro hp
    simp [nc_connect_ssh_port, hp]
  · intro t ht
    unfold nc_connect_ssh at ht
    repeat' split at ht <;> try simp_all
  · intro s hs
    unfold nc_connect_ssh at hs
    repeat' split at hs <;> try simp_all
    exact ⟨congrArg Session.host hs.symm, congrArg Session.port hs.symm⟩

/-- C4: each of `nc_connect_ssh`, `nc_connect_libssh` and
`nc_connect_ssh_channel` creates the session with status starting,
moves the status only forward along
starting -> running -> closing -> invalid, sets status running only
after the NETCONF handshake succeeds, and returns only running sessions
having a negotiated version and non-null transport data: a non-null
`ti_lock` and `ti.libssh.session` (for a channel session, the ones
shared with the argument session). -/
lemma nc_connect_ssh_trace_cases (host : Option String) (port : Nat) (env : ConnectEnv) :
    (nc_connect_ssh host port env).statusTrace = [] ∨
    (nc_connect_ssh host port env).statusTrace = [NC_STATUS.starting] ∨
    ((nc_connect_ssh host port env).statusTrace = [NC_STATUS.starting, NC_STATUS.running] ∧
      env.handshake ≠ none) := by
  unfold nc_connect_ssh
  repeat' split <;> simp_all

lemma nc_connect_ssh_session_cases (host : Option String) (port : Nat) (env : ConnectEnv) :
    (nc_connect_ssh host port env).session = none ∨
    ∃ v, env.handshake = some v ∧
      (nc_connect_ssh host port env).session =
        some { status := NC_STATUS.running, side := NC_SIDE.client, version := some v,
               tiLockSet := true, sshSessionSet := true,
               host := nc_connect_ssh_host host, port := nc_connect_ssh_port port,
               msgid := 0 } := by
  unfold nc_connect_ssh
  repeat' split <;> simp_all

lemma nc_connect_libssh_trace_cases (lenv : LibsshEnv) :
    (nc_connect_libssh lenv).statusTrace = [] ∨
    (nc_connect_libssh lenv).statusTrace = [NC_STATUS.starting] ∨
    ((nc_connect_libssh lenv).statusTrace = [NC_STATUS.starting, NC_STATUS.running] ∧
      lenv.handshake ≠ none) := by
  unfold nc_connect_libssh
  repeat' split
  all_goals simp_all

lemma nc_connect_libssh_session_cases (lenv : LibsshEnv) :
    (nc_connect_libssh lenv).session = none ∨
    ∃ v, lenv.handshake = some v ∧
      (nc_connect_libssh lenv).session =
        some { status := NC_STATUS.running, side := NC_SIDE.client, version := some v,
               tiLockSet := true, sshSessionSet := true, host := "", port := 0,
               msgid := 0 } := by
  unfold nc_connect_libssh
  repeat' split
  all_goals simp_all

lemma nc_connect_ssh_channel_trace_cases (arg : Session) (cenv : ChannelEnv) :
    (nc_connect_ssh_channel arg cenv).statusTrace = [] ∨
    (nc_connect_ssh_channel arg cenv).statusTrace = [NC_STATUS.starting] ∨
    ((nc_connect_ssh_channel arg cenv).statusTrace =
        [NC_STATUS.starting, NC_STATUS.running] ∧ cenv.handshake ≠ none) := by
  unfold nc_connect_ssh_channel
  repeat' split <;> simp_all

lemma nc_connect_ssh_channel_session_cases (arg : Session) (cenv : ChannelEnv) :
    (nc_connect_ssh_channel arg cenv).session = none ∨
    ∃ v, cenv.handshake = some v ∧
      (nc_connect_ssh_channel arg cenv).session =
        some { status := NC_STATUS.running, side := NC_SIDE.client, version := some v,
               tiLockSet := arg.tiLockSet, sshSessionSet := arg.sshSessionSet,
               host := arg.host, port := arg.port, msgid := 0 } := by
  unfold nc_connect_ssh_channel
  repeat' split <;> simp_all

lemma lifecycleOk_of_cases (r : ConnectResult) (handshake : Option NC_VERSION)
    (htr : r.statusTrace = [] ∨ r.statusTrace = [NC_STATUS.starting] ∨
      (r.statusTrace = [NC_STATUS.starting, NC_STATUS.running] ∧ handshake ≠ none))
    (hse : ∀ s, r.session = some s → s.status = NC_STATUS.running ∧ s.version ≠ none ∧
      s.version = handshake) : LifecycleOk r handshake := by
  rcases htr with h | h | ⟨h, hh⟩
  · exact ⟨by simp [h], by simp [h], by simp [h], hse⟩
  · exact ⟨by simp [h], by simp [h], by simp [h], hse⟩
  · refine ⟨by simp [h], by simp [h, statusRank], ?_, hse⟩
    intro _
    exact hh

/-- C4: each of `nc_connect_ssh`, `nc_connect_libssh` and
`nc_connect_ssh_channel` creates the session with status starting,
moves the status only forward along
starting -> running -> closing -> invalid, sets status running only
after the NETCONF handshake succeeds, and returns only running sessions
having a negotiated version and non-null transport data: a non-null
`ti_lock` and `ti.libssh.session` (for a channel session, the ones
shared with the argument session). -/
theorem c4_status_lifecycle (host : Option String) (port : Nat) (env : ConnectEnv)
    (lenv : LibsshEnv) (arg : Session) (cenv : ChannelEnv) :
    (LifecycleOk (nc_connect_ssh host port env) env.handshake ∧
      (∀ s, (nc_connect_ssh host port env).session = some s →
        s.sshSessionSet = true ∧ s.tiLockSet = true)) ∧
    (LifecycleOk (nc_connect_libssh lenv) lenv.handshake ∧
      (∀ s, (nc_connect_libssh lenv).session = some s →
        s.sshSessionSet = true ∧ s.tiLockSet = true)) ∧
    (LifecycleOk (nc_connect_ssh_channel arg cenv) cenv.handshake ∧
      (∀ s, (nc_connect_ssh_channel arg cenv).session = some s →
        s.sshSessionSet = arg.sshSessionSet ∧ s.tiLockSet = arg.tiLockSet)) := by
  refine ⟨⟨lifecycleOk_of_cases _ _ (nc_connect_ssh_trace_cases host port env) ?_, ?_⟩,
    ⟨lifecycleOk_of_cases _ _ (nc_connect_libssh_trace_cases lenv) ?_, ?_⟩,
    ⟨lifecycleOk_of_cases _ _ (nc_connect_ssh_channel_trace_cases arg cenv) ?_, ?_⟩⟩ <;>
      intro s hs
  · rcases nc_connect_ssh_session_cases host port env with h | ⟨v, hv, h⟩ <;> rw [h] at hs
    · exact absurd hs (by simp)
    · injection hs with hs
      subst hs
      simp [hv]
  · rcases nc_connect_ssh_session_cases host port env with h | ⟨v, hv, h⟩ <;> rw [h] at hs
    · exact absurd hs (by simp)
    · injection hs with hs
      subst hs
      simp
  · rcases nc_connect_libssh_session_cases lenv with h | ⟨v, hv, h⟩ <;> rw [h] at hs
    · exact absurd hs (by simp)
    · injection hs with hs
      subst hs
      simp [hv]
  · rcases nc_connect_libssh_session_cases lenv with h | ⟨v, hv, h⟩ <;> rw [h] at hs
    · exact absurd hs (by simp)
    · injection hs with hs
      subst hs
      simp
  · rcases nc_connect_ssh_channel_session_cases arg cenv with h | ⟨v, hv, h⟩ <;> rw [h] at hs
    · exact absurd hs (by simp)
    · injection hs with hs
      subst hs
      simp [hv]
  · rcases nc_connect_ssh_channel_session_cases arg cenv with h | ⟨v, hv, h⟩ <;> rw [h] at hs
    · exact absurd hs (by simp)
    · injection hs with hs
      subst hs
      simp

lemma selectAuth_offers (p : AuthPrefs) (o : AuthOffer) (m : NC_SSH_AUTH_TYPE)
    (h : selectAuth p o = some m) : o.offers m = true := by
  rcases o with ⟨oi, op, ok⟩
  cases oi <;> cases op <;> cases ok <;> simp [selectAuth] at h
  all_goals try split_ifs at h
  all_goals try injection h with h
  all_goals subst h
  all_goals simp [AuthOffer.offers]

lemma selectAuth_max (p : AuthPrefs) (o : AuthOffer) (m : NC_SSH_AUTH_TYPE)
    (h : selectAuth p o = some m) (m' : NC_SSH_AUTH_TYPE)
    (hm' : o.offers m' = true) : get_auth_pref m' p ≤ get_auth_pref m p := by
  rcases o with ⟨oi, op, ok⟩
  cases oi <;> cases op <;> cases ok <;> simp [selectAuth] at h
  all_goals try split_ifs at h
  all_goals try injection h with h
  all_goals subst h
  all_goals cases m' <;> simp_all [AuthOffer.offers, get_auth_pref] <;> omega

lemma selectAuth_none_empty (p : AuthPrefs) : selectAuth p ⟨false, false, false⟩ = none := by
  simp [selectAuth]

lemma removeMethod_sub (o : AuthOffer) (m : NC_SSH_AUTH_TYPE) :
    OfferSub (removeMethod o m) o := by
  intro m'
  cases m <;> cases m' <;> simp [removeMethod, AuthOffer.offers]

lemma removeDisabled_nonneg (p : AuthPrefs) (o : AuthOffer) (m : NC_SSH_AUTH_TYPE)
    (h : (removeDisabled p o).offers m = true) : 0 ≤ get_auth_pref m p := by
  cases m <;> simp [removeDisabled, AuthOffer.offers, get_auth_pref] at h ⊢ <;>
    exact h.1

lemma authLoop_attempts (p : AuthPrefs) (succ : NC_SSH_AUTH_TYPE → Bool) :
    ∀ fuel o pr, pr ∈ (authLoop p succ fuel o).2 →
      pr.1.offers pr.2 = true ∧
      (∀ m', pr.1.offers m' = true → get_auth_pref m' p ≤ get_auth_pref pr.2 p) ∧
      OfferSub pr.1 o := by
  intro fuel
  induction fuel with
  | zero =>
    intro o pr h
    simp [authLoop] at h
  | succ n ih =>
    intro o pr h
    rcases hsel : selectAuth p o with _ | m
    · simp [authLoop, hsel] at h
    · by_cases hm : succ m = true
      · simp [authLoop, hsel, hm] at h
        subst h
        exact ⟨selectAuth_offers p o m hsel, fun m' hm' => selectAuth_max p o m hsel m' hm',
          fun _ hx => hx⟩
      · simp [authLoop, hsel, hm] at h
        rcases h with h | h
        · subst h
          exact ⟨selectAuth_offers p o m hsel, fun m' hm' => selectAuth_max p o m hsel m' hm',
            fun _ hx => hx⟩
        · obtain ⟨h1, h2, h3⟩ := ih (removeMethod o m) pr h
          exact ⟨h1, h2, fun m' hm' => removeMethod_sub o m m' (h3 m' hm')⟩

lemma authLoop_success (p : AuthPrefs) (succ : NC_SSH_AUTH_TYPE → Bool) :
    ∀ fuel o, (authLoop p succ fuel o).1 = true →
      ∃ pr ∈ (authLoop p succ fuel o).2, succ pr.2 = true := by
  intro fuel
  induction fuel with
  | zero =>
    intro o h
    simp [authLoop] at h
  | succ n ih =>
    intro o h
    rcases hsel : selectAuth p o with _ | m
    · simp [authLoop, hsel] at h
    · by_cases hm : succ m = true
      · exact ⟨(o, m), by simp [authLoop, hsel, hm], hm⟩
      · simp only [authLoop, hsel, Bool.not_eq_true] at h ⊢
        rw [if_neg (by simp [hm])] at h ⊢
        obtain ⟨pr, hmem, hsucc⟩ := ih (removeMethod o m) h
        exact ⟨pr, List.mem_cons_of_mem _ hmem, hsucc⟩

/-- C5: in the authentication loop of `connect_ssh_session_netconf`,
every attempted method is offered at its round with the maximal
configured preference among the methods still offered; a method whose
preference was set negative is never attempted (its preference is
clamped at -1, while every attempted method has preference >= 0); and
when the initial probe did not already succeed and no enabled offered
method remains, authentication fails. -/
theorem c5_auth_preference_order (p : AuthPrefs) (offered : AuthOffer)
    (succ : NC_SSH_AUTH_TYPE → Bool) (noneRes : NoneAuthResult) :
    (∀ pr ∈ (connect_ssh_auth p offered succ noneRes).2,
      pr.1.offers pr.2 = true ∧
      0 ≤ get_auth_pref pr.2 p ∧
      (∀ m, pr.1.offers m = true → get_auth_pref m p ≤ get_auth_pref pr.2 p)) ∧
    ((connect_ssh_auth p offered succ noneRes).1 = true →
      noneRes = NoneAuthResult.success ∨
      ∃ pr ∈ (connect_ssh_auth p offered succ noneRes).2, succ pr.2 = true) ∧
    ((∀ m, (removeDisabled p offered).offers m = false) →
      noneRes ≠ NoneAuthResult.success →
      (connect_ssh_auth p offered succ noneRes).1 = false) := by
  cases noneRes with
  | error => simp [connect_ssh_auth]
  | success => simp [connect_ssh_auth]
  | denied =>
    refine ⟨?_, ?_, ?_⟩
    · intro pr hpr
      obtain ⟨h1, h2, h3⟩ := authLoop_attempts p succ 3 (removeDisabled p offered) pr hpr
      exact ⟨h1, removeDisabled_nonneg p offered pr.2 (h3 pr.2 h1), h2⟩
    · intro h
      exact Or.inr (authLoop_success p succ 3 (removeDisabled p offered) h)
    · intro hempty _
      have ho : removeDisabled p offered = ⟨false, false, false⟩ := by
        have hi := hempty NC_SSH_AUTH_TYPE.interactive
        have hp := hempty NC_SSH_AUTH_TYPE.password
        have hk := hempty NC_SSH_AUTH_TYPE.publickey
        rcases hr : removeDisabled p offered with ⟨a, b, c⟩
        rw [hr] at hi hp hk
        simp [AuthOffer.offers] at hi hp hk
        simp [hi, hp, hk]
      simp [connect_ssh_auth, ho, authLoop, selectAuth_none_empty]

lemma hostkeyPrompt_spec (l : List String) :
    ((hostkeyPrompt l).ok = true ↔ firstDecisiveAnswer l = some "yes") ∧
    (hostkeyPrompt l).wroteKnownHost = (hostkeyPrompt l).ok := by
  induction l with
  | nil => simp [hostkeyPrompt, firstDecisiveAnswer]
  | cons a rest ih =>
    by_cases hy : a = "yes"
    · simp [hostkeyPrompt, firstDecisiveAnswer, hy]
    · by_cases hn : a = "no"
      · simp [hostkeyPrompt, firstDecisiveAnswer, hy, hn]
      · simpa [hostkeyPrompt, firstDecisiveAnswer, hy, hn] using ih

/-- C1 counterexample: with the server host key unknown and DNSSEC
disabled, `sshauth_hostkey_check` does not refuse the server: it asks
the user, and an answer of "yes" makes the check succeed and write the
key into the known-hosts file. -/
theorem c1_hostkey_unknown_counterexample :
    sshauth_hostkey_check
      { state := KnownState.notKnown, getPubkeyOk := true, hashOk := true,
        keyType := SshKeyType.rsa, dnssecEnabled := false, dnssecResult := 2,
        answers := ["yes"] } = { ok := true, wroteKnownHost := true } := by
  rfl

/-- C1 amended: for an unknown host key, with DNSSEC disabled the user
is prompted interactively and the check succeeds exactly when the first
decisive answer is "yes" (and the key is written to known-hosts exactly
on success); when DNSSEC is enabled and a DNSSEC SSHFP record matching
the server key is found (a secure result for a DSS, RSA or ECDSA key),
the client accepts, writes the key to known-hosts, and the host-key
check succeeds. -/
theorem c1_hostkey_check_amended (e : HostkeyEnv)
    (hpub : e.getPubkeyOk = true) (hhash : e.hashOk = true)
    (hstate : e.state = KnownState.notKnown) :
    (e.dnssecEnabled = false →
      ((sshauth_hostkey_check e).ok = true ↔
        firstDecisiveAnswer e.answers = some "yes") ∧
      (sshauth_hostkey_check e).wroteKnownHost = (sshauth_hostkey_check e).ok) ∧
    (e.dnssecEnabled = true →
      (e.keyType = SshKeyType.dss ∨ e.keyType = SshKeyType.rsa ∨
        e.keyType = SshKeyType.ecdsa) →
      e.dnssecResult = 0 →
      sshauth_hostkey_check e = { ok := true, wroteKnownHost := true }) := by
  constructor
  · intro hd
    have hred : sshauth_hostkey_check e = hostkeyPrompt e.answers := by
      simp [sshauth_hostkey_check, hpub, hhash, hstate, hd]
    rw [hred]
    exact hostkeyPrompt_spec e.answers
  · intro hd hkt hres
    rcases hkt with h | h | h <;>
      simp [sshauth_hostkey_check, hpub, hhash, hstate, hd, hres, h]

/-- C1 witness for the amended theorem: the concrete environment
`hostkeyEnvDemo` (unknown host key, DNSSEC disabled, the user answers
"maybe" and then "no"). -/
theorem c1_hostkey_check_amended_witness :
    (hostkeyEnvDemo.dnssecEnabled = false →
      ((sshauth_hostkey_check hostkeyEnvDemo).ok = true ↔
        firstDecisiveAnswer hostkeyEnvDemo.answers = some "yes") ∧
      (sshauth_hostkey_check hostkeyEnvDemo).wroteKnownHost =
        (sshauth_hostkey_check hostkeyEnvDemo).ok) ∧
    (hostkeyEnvDemo.dnssecEnabled = true →
      (hostkeyEnvDemo.keyType = SshKeyType.dss ∨ hostkeyEnvDemo.keyType = SshKeyType.rsa ∨
        hostkeyEnvDemo.keyType = SshKeyType.ecdsa) →
      hostkeyEnvDemo.dnssecResult = 0 →
      sshauth_hostkey_check hostkeyEnvDemo = { ok := true, wroteKnownHost := true }) :=
  c1_hostkey_check_amended hostkeyEnvDemo rfl rfl rfl

lemma msgidSeq_range (n : Nat) : ∀ s : Session, msgidSeq s n = List.range' s.msgid n := by
  induction n with
  | zero => intro s; rfl
  | succ m ih =>
    intro s
    simp [msgidSeq, nc_send_rpc_msgid, ih, List.range'_succ]

lemma chain_lt_range1 (m n : Nat) : List.Chain' (· < ·) (List.range' m n) := by
  cases n with
  | zero => simp
  | succ k => exact List.chain_lt_range' m k (by omega)

/-- C3 counterexample: on a session freshly created by `nc_connect_ssh`
(whose `msgid` counter is zero from calloc), the first message-id
assigned by post-incrementing the counter is 0, not 1. -/
theorem c3_first_msgid_counterexample :
    (match (nc_connect_ssh (some "server") 830 connectEnvAllOk).session with
      | some s => msgidSeq s 1
      | none => []) = [0] ∧ (0 : Nat) ≠ 1 := by
  exact ⟨rfl, by decide⟩

/-- C3 amended: for every session created by `nc_connect_ssh`, the
message-ids assigned to successively sent RPCs by post-incrementing the
session's `msgid` counter are 0, 1, 2, ...: the sequence is strictly
increasing and its first element is 0. -/
theorem c3_msgid_sequence_amended (host : Option String) (port : Nat) (env : ConnectEnv)
    (s : Session) (hs : (nc_connect_ssh host port env).session = some s) (n : Nat) :
    msgidSeq s n = List.range n ∧
    List.Chain' (· < ·) (msgidSeq s n) ∧
    (0 < n → (msgidSeq s n).head? = some 0) := by
  have hm : s.msgid = 0 := by
    rcases nc_connect_ssh_session_cases host port env with h | ⟨v, hv, h⟩ <;> rw [h] at hs
    · exact absurd hs (by simp)
    · injection hs with hs
      subst hs
      rfl
  have hr : msgidSeq s n = List.range' 0 n := by
    rw [msgidSeq_range n s, hm]
  refine ⟨by rw [hr, List.range_eq_range'], by rw [hr]; exact chain_lt_range1 0 n, ?_⟩
  intro hn
  rw [hr]
  cases n with
  | zero => exact absurd hn (by omega)
  | succ k => rfl

/-- C3 witness for the amended theorem: three RPCs sent on a session
connected with every external call succeeding. -/
theorem c3_msgid_sequence_amended_witness :
    (match (nc_connect_ssh (some "server") 830 connectEnvAllOk).session with
      | some s =>
        msgidSeq s 3 = List.range 3 ∧
        List.Chain' (· < ·) (msgidSeq s 3) ∧
        (0 < 3 → (msgidSeq s 3).head? = some 0)
      | none => False) := by
  exact c3_msgid_sequence_amended (some "server") 830 connectEnvAllOk _ rfl 3

lemma iterNext_add (next : Nat → Option Nat) (k1 k2 a : Nat) :
    iterNext next (k1 + k2) a = (iterNext next k1 a).bind (iterNext next k2) := by
  induction k1 generalizing a with
  | zero => simp [iterNext]
  | succ m ih =>
    rw [Nat.succ_add]
    cases hn : next a with
    | none => simp [iterNext, hn]
    | some b => simp [iterNext, hn, ih]

lemma reaches_trans (next : Nat → Option Nat) (a b c : Nat)
    (h1 : Reaches next a b) (h2 : Reaches next b c) : Reaches next a c := by
  obtain ⟨k1, hk1⟩ := h1
  obtain ⟨k2, hk2⟩ := h2
  exact ⟨k1 + k2, by rw [iterNext_add, hk1]; simpa using hk2⟩

lemma chain_reach_head (next : Nat → Option Nat) :
    ∀ (m : List Nat) (a : Nat), List.Chain' (fun x y => next x = some y) (a :: m) →
      ∀ b ∈ a :: m, Reaches next a b := by
  intro m
  induction m with
  | nil =>
    intro a _ b hb
    simp at hb
    subst hb
    exact ⟨0, rfl⟩
  | cons c m' ih =>
    intro a hch b hb
    rw [List.chain'_cons] at hch
    rcases List.mem_cons.mp hb with rfl | hb'
    · exact ⟨0, rfl⟩
    · obtain ⟨k, hk⟩ := ih c hch.2 b hb'
      exact ⟨k + 1, by simp [iterNext, hch.1, hk]⟩

lemma chain_reach_last (next : Nat → Option Nat) :
    ∀ (m : List Nat) (a : Nat), List.Chain' (fun x y => next x = some y) (a :: m) →
      ∀ b ∈ a :: m, Reaches next b ((a :: m).getLast (by simp)) := by
  intro m
  induction m with
  | nil =>
    intro a _ b hb
    simp at hb
    subst hb
    exact ⟨0, rfl⟩
  | cons c m' ih =>
    intro a hch b hb
    rw [List.chain'_cons] at hch
    have hlast : (a :: c :: m').getLast (by simp) = (c :: m').getLast (by simp) :=
      List.getLast_cons (by simp)
    rw [hlast]
    rcases List.mem_cons.mp hb with rfl | hb'
    · exact reaches_trans next b c _ ⟨1, by simp [iterNext, hch.1]⟩ (ih c hch.2 c (by simp))
    · exact ih c hch.2 b hb'

lemma isRing_reaches (next : Nat → Option Nat) (l : List Nat) (hr : IsRing next l) :
    ∀ a ∈ l, ∀ b ∈ l, Reaches next a b := by
  obtain ⟨hne, hnodup, hchain, hwrap⟩ := hr
  cases l with
  | nil => exact absurd rfl hne
  | cons x xs =>
    intro a ha b hb
    have h1 : Reaches next a ((x :: xs).getLast (by simp)) :=
      chain_reach_last next xs x hchain a ha
    have h2 : Reaches next ((x :: xs).getLast (by simp)) x := by
      refine ⟨1, ?_⟩
      have hx : next ((x :: xs).getLast (by simp)) = some x := by
        rw [hwrap]
        rfl
      simp [iterNext, hx]
    have h3 : Reaches next x b := chain_reach_head next xs x hchain b hb
    exact reaches_trans next a x b (reaches_trans next a _ x h1 h2) h3

lemma chain'_congr_next (f g : Nat → Option Nat) :
    ∀ (l : List Nat), (∀ a ∈ l, f a = g a) →
      (List.Chain' (fun x y => f x = some y) l ↔
        List.Chain' (fun x y => g x = some y) l) := by
  intro l
  induction l with
  | nil => simp
  | cons a l ih =>
    cases l with
    | nil => simp
    | cons b l' =>
      intro hag
      have h1 : f a = g a := hag a (by simp)
      have h2 := ih (fun x hx => hag x (List.mem_cons_of_mem _ hx))
      rw [List.chain'_cons, List.chain'_cons, h1, h2]

/-- C6: after `nc_connect_ssh_channel(session, ctx)` splices the new
session `n` next to the argument session `s` (whose siblings, if any,
formed a ring listed `s :: rest`; a fresh session has a NULL `next`),
the new session shares the transport lock and the underlying SSH session
of the argument, and all sessions form a circular list through
`ti.libssh.next` in which every member is reachable from every other. -/
theorem c6_channel_sibling_ring (st : SiblingState) (s n : Nat) (rest : List Nat)
    (hns : n ≠ s) (hnrest : n ∉ rest)
    (hpre : (rest = [] ∧ st.next s = none) ∨ IsRing st.next (s :: rest)) :
    (connectChannelRing st s n).lock n = st.lock s ∧
    (connectChannelRing st s n).sshs n = st.sshs s ∧
    IsRing (connectChannelRing st s n).next (s :: n :: rest) ∧
    (∀ a ∈ s :: n :: rest, ∀ b ∈ s :: n :: rest,
      Reaches (connectChannelRing st s n).next a b) := by
  have hsn : s ≠ n := Ne.symm hns
  have hlock : (connectChannelRing st s n).lock n = st.lock s := by
    simp [connectChannelRing]
  have hsshs : (connectChannelRing st s n).sshs n = st.sshs s := by
    simp [connectChannelRing]
  have hnexts : (connectChannelRing st s n).next s = some n := by
    simp [connectChannelRing, hsn]
  have hring : IsRing (connectChannelRing st s n).next (s :: n :: rest) := by
    rcases hpre with ⟨hrnil, hsnone⟩ | hring0
    · subst hrnil
      refine ⟨by simp, by simp [hsn], ?_, ?_⟩
      · rw [List.chain'_cons]
        exact ⟨hnexts, List.chain'_singleton _⟩
      · have hl : (s :: n :: ([] : List Nat)).getLast (by simp) = n := rfl
        rw [hl]
        simp [connectChannelRing, hsnone]
    · cases rest with
      | nil =>
        obtain ⟨hne0, hnodup0, hchain0, hwrap0⟩ := hring0
        have hss : st.next s = some s := by simpa using hwrap0
        refine ⟨by simp, by simp [hsn], ?_, ?_⟩
        · rw [List.chain'_cons]
          exact ⟨hnexts, List.chain'_singleton _⟩
        · have hl : (s :: n :: ([] : List Nat)).getLast (by simp) = n := rfl
          rw [hl]
          simp [connectChannelRing, hss]
      | cons r rest' =>
        obtain ⟨hne0, hnodup0, hchain0, hwrap0⟩ := hring0
        have hsr : st.next s = some r := (List.chain'_cons.mp hchain0).1
        have hsrest : s ∉ (r :: rest') := (List.nodup_cons.mp hnodup0).1
        have hrestnodup : (r :: rest').Nodup := (List.nodup_cons.mp hnodup0).2
        have hagree : ∀ a ∈ (r :: rest'),
            (connectChannelRing st s n).next a = st.next a := by
          intro a ha
          have han : a ≠ n := by
            rintro rfl
            exact hnrest ha
          have has : a ≠ s := by
            rintro rfl
            exact hsrest ha
          simp [connectChannelRing, han, has]
        refine ⟨by simp, ?_, ?_, ?_⟩
        · refine List.nodup_cons.mpr ⟨?_, List.nodup_cons.mpr ⟨hnrest, hrestnodup⟩⟩
          intro hmem
          rcases List.mem_cons.mp hmem with h | h
          · exact hsn h
          · exact hsrest h
        · rw [List.chain'_cons]
          refine ⟨hnexts, ?_⟩
          rw [List.chain'_cons]
          refine ⟨by simp [connectChannelRing, hsr], ?_⟩
          exact (chain'_congr_next _ st.next (r :: rest') hagree).mpr
            (List.chain'_cons.mp hchain0).2
        · have hl1 : (s :: n :: r :: rest').getLast (by simp)
              = (r :: rest').getLast (by simp) := by
            rw [List.getLast_cons (by simp), List.getLast_cons (by simp)]
          have hmem : (r :: rest').getLast (by simp) ∈ (r :: rest') :=
            List.getLast_mem _
          have h2 : st.next ((r :: rest').getLast (by simp)) = some s := by
            have h3 := hwrap0
            rw [List.getLast_cons (by simp)] at h3
            simpa using h3
          rw [hl1, hagree _ hmem, h2]
          rfl
  exact ⟨hlock, hsshs, hring, isRing_reaches _ _ hring⟩

/-- C6 witness: splicing session 1 next to the fresh session 0 in the
concrete state `siblingDemo` shares its lock and SSH handle and forms
the two-member ring 0 -> 1 -> 0. -/
theorem c6_channel_sibling_ring_witness :
    (connectChannelRing siblingDemo 0 1).lock 1 = siblingDemo.lock 0 ∧
    (connectChannelRing siblingDemo 0 1).sshs 1 = siblingDemo.sshs 0 ∧
    IsRing (connectChannelRing siblingDemo 0 1).next [0, 1] ∧
    (∀ a ∈ [0, 1], ∀ b ∈ [0, 1], Reaches (connectChannelRing siblingDemo 0 1).next a b) :=
  c6_channel_sibling_ring siblingDemo 0 1 [] (by decide) (by simp) (Or.inl ⟨rfl, rfl⟩)

end Libnetconf2
